import Mathlib

/-! thgsp, `csrc/version.cpp`.

A shallow embedding of the one translation unit of the repository. It has a
function `int64_t cuda_version()` whose body is selected by the preprocessor
(`return CUDA_VERSION;` when `WITH_CUDA` is defined, `return -1;` otherwise)
and a static object `registry` whose initialiser is
`torch::RegisterOperators().op("torch_gsp::cuda_version", &cuda_version)`.

The preprocessor environment of a build is an explicit value (`Build`), the
implicit conversion of the returned constant to `int64_t` is an explicit
reduction modulo `2^64`, and the operator table of the host framework is an
explicit state that is passed through every call.
-/

namespace ThGSP

/-! ## 64-bit signed integers -/

/-- Smallest value of the C++ type `int64_t`, that is `-2^63`. -/
def INT64_MIN : Int := -9223372036854775808

/-- Largest value of the C++ type `int64_t`, that is `2^63 - 1`. -/
def INT64_MAX : Int := 9223372036854775807

/-- Conversion of an integer constant to the return type `int64_t`: the unique
value in `[-2^63, 2^63)` congruent to `v` modulo `2^64`. This is the implicit
conversion that `return e;` performs in a function declared `int64_t f()`. -/
def to_int64_t (v : Int) : Int :=
  (v + 9223372036854775808) % 18446744073709551616 - 9223372036854775808

/-! ## Build configuration -/

/-- Preprocessor environment of one build of `version.cpp`.

* `WITH_CUDA` says whether the macro `WITH_CUDA` is defined (`#ifdef WITH_CUDA`).
* `CUDA_VERSION` is the value to which the macro `CUDA_VERSION` expands. The
  macro comes from the toolkit header `<cuda.h>`, which is included only when
  `WITH_CUDA` is defined and is not part of the repository, so its value is a
  parameter of the build. It is read only when `WITH_CUDA` is defined. -/
structure Build where
  WITH_CUDA : Bool
  CUDA_VERSION : Int

/-! ## The version query (`version.cpp`, lines 7-13) -/

/-- The function `int64_t cuda_version()`. The `#ifdef` is resolved by the
build: with `WITH_CUDA` the body is `return CUDA_VERSION;`, otherwise it is
`return -1;`. Either returned constant is converted to `int64_t`. -/
def cuda_version (b : Build) : Int :=
  if b.WITH_CUDA then to_int64_t b.CUDA_VERSION else to_int64_t (-1)

/-- A call of `cuda_version()` in a process whose runtime state is `s`. The
body reads no global and writes none, so the state is handed back as it came. -/
def call_cuda_version {σ : Type} (b : Build) (s : σ) : Int × σ :=
  (cuda_version b, s)

/-- The first `n` calls of `cuda_version()` made one after the other from the
runtime state `s`: the results in call order, and the state after the last. -/
def call_cuda_version_n {σ : Type} (b : Build) : Nat → σ → List Int × σ
  | 0, s => ([], s)
  | n + 1, s =>
    let r := call_cuda_version b s
    let rest := call_cuda_version_n b n r.2
    (r.1 :: rest.1, rest.2)

/-! ## The operator table of the host framework -/

/-- Modelled from the spec: one entry of the host framework's operator table,
"a global, host-framework-owned table mapping string names to callable native
functions". The framework (`torch::RegisterOperators`) is missing from the
repository. An entry has the registered name, the number of inputs of its call
signature, and the callable: given the inputs it yields the integer output, or
nothing when the inputs do not fit the signature. -/
structure Operator where
  name : String
  num_inputs : Nat
  call : List Int → Option Int

/-- Modelled from the spec: the operator table, the process-wide state that
the host framework owns; entries are kept in registration order. -/
abbrev OperatorTable := List Operator

/-- Modelled from the spec: whether the table has an entry of that name. -/
def has_operator (name : String) : OperatorTable → Bool
  | [] => false
  | op :: rest => op.name == name || has_operator name rest

/-- Modelled from the spec: the number of entries of that name in the table. -/
def count_operator (name : String) : OperatorTable → Nat
  | [] => 0
  | op :: rest => (if op.name == name then 1 else 0) + count_operator name rest

/-- Modelled from the spec: the "read-only lookup by name" in the table. -/
def find_operator (name : String) : OperatorTable → Option Operator
  | [] => none
  | op :: rest => if op.name == name then some op else find_operator name rest

/-- Modelled from the spec: the entry the framework makes of a native function
of type `int64_t (*)()`. Its call signature is "no inputs; one 64-bit signed
integer output". -/
def nullary_operator (name : String) (f : Unit → Int) : Operator :=
  { name := name
    num_inputs := 0
    call := fun args =>
      match args with
      | [] => some (f ())
      | _ :: _ => none }

/-- Modelled from the spec: `torch::RegisterOperators().op(name, &f)` for a
native function `int64_t f()`. It enters `f` under `name` in the table. The
only failure the spec names is "the host framework rejecting the operator
registration (e.g., name collision)": a name that the table already has is
rejected (`none`), and the table is otherwise extended by the new entry. -/
def RegisterOperators_op (name : String) (f : Unit → Int) (t : OperatorTable) :
    Option OperatorTable :=
  if has_operator name t then none else some (t ++ [nullary_operator name f])

/-- The fixed namespaced name, the string literal of `version.cpp` line 17. -/
def cuda_version_name : String := "torch_gsp::cuda_version"

/-- The static initialiser `static auto registry = ...` (`version.cpp`, lines
16-17), run once when the module is loaded, on the operator table `t` of the
process. It stands outside every `#ifdef`, so it is the same in all builds;
the build only decides which `cuda_version` the entry points to. -/
def registry (b : Build) (t : OperatorTable) : Option OperatorTable :=
  RegisterOperators_op cuda_version_name (fun _ => cuda_version b) t

/-- Modelled from the spec: a call of the operator registered under `name`
through the table ("discoverable/callable through that table"), with the given
inputs. The lookup is read-only. -/
def call_operator (name : String) (args : List Int) (t : OperatorTable) :
    Option Int :=
  match find_operator name t with
  | some op => op.call args
  | none => none

/-- The two ways a caller reaches the query: the C++ function itself, or the
operator registered in the table. -/
inductive Call where
  | direct
  | through_table

/-- One call of the query on the process state (the operator table): the
result, if any, and the table after the call. -/
def perform (b : Build) (c : Call) (t : OperatorTable) :
    Option Int × OperatorTable :=
  match c with
  | Call.direct =>
    let r := call_cuda_version b t
    (some r.1, r.2)
  | Call.through_table => (call_operator cuda_version_name [] t, t)

/-- A sequence of calls made one after the other: the results in call order
and the table after the last call. -/
def perform_all (b : Build) : List Call → OperatorTable →
    List (Option Int) × OperatorTable
  | [], t => ([], t)
  | c :: cs, t =>
    let r := perform b c t
    let rest := perform_all b cs r.2
    (r.1 :: rest.1, rest.2)

/-! ## Lemmas on the conversion to `int64_t` -/

theorem to_int64_t_of_fits (v : Int) (hlo : INT64_MIN ≤ v) (hhi : v ≤ INT64_MAX) :
    to_int64_t v = v := by
  unfold INT64_MIN at hlo
  unfold INT64_MAX at hhi
  unfold to_int64_t
  omega

theorem to_int64_t_fits (v : Int) :
    INT64_MIN ≤ to_int64_t v ∧ to_int64_t v ≤ INT64_MAX := by
  unfold INT64_MIN INT64_MAX to_int64_t
  omega

theorem to_int64_t_neg_one : to_int64_t (-1) = -1 := by
  unfold to_int64_t
  omega

/-! ## The version query -/

/-- With `WITH_CUDA` the result is the toolkit constant converted to
`int64_t`, for every integer the constant may be. -/
theorem cuda_version_with_cuda_conv (v : Int) :
    cuda_version { WITH_CUDA := true, CUDA_VERSION := v } = to_int64_t v := by
  simp [cuda_version]

/-- A constant outside `int64_t` is not returned as it is: `2^64 - 1`, a value
of `unsigned long long`, comes back as `-1`. -/
theorem cuda_version_with_cuda_wraps :
    cuda_version { WITH_CUDA := true, CUDA_VERSION := 18446744073709551615 } = -1 := by
  decide

/-- C1: in a build without GPU-acceleration support (`WITH_CUDA` not defined)
`cuda_version()` returns exactly `-1`, whatever else the build environment
holds. -/
theorem cuda_version_without_cuda (v : Int) :
    cuda_version { WITH_CUDA := false, CUDA_VERSION := v } = -1 := by
  simp [cuda_version, to_int64_t_neg_one]

/-- C2: in a build with GPU-acceleration support (`WITH_CUDA` defined), for
every value `v` of the toolkit constant `CUDA_VERSION` that is a 64-bit signed
integer, `cuda_version()` returns `v` itself, unchanged. -/
theorem cuda_version_with_cuda (v : Int) (hlo : INT64_MIN ≤ v) (hhi : v ≤ INT64_MAX) :
    cuda_version { WITH_CUDA := true, CUDA_VERSION := v } = v := by
  simp [cuda_version, to_int64_t_of_fits v hlo hhi]

theorem cuda_version_with_cuda_witness :
    INT64_MIN ≤ 12040 ∧ (12040 : Int) ≤ INT64_MAX ∧
      cuda_version { WITH_CUDA := true, CUDA_VERSION := 12040 } = 12040 :=
  ⟨by decide, by decide, cuda_version_with_cuda 12040 (by decide) (by decide)⟩

/-- C3, as stated, fails: a build with GPU-acceleration support returns a
negative integer when the toolkit constant is `-1` (returned as it is), and
also when the constant is `2^63`, which the conversion to `int64_t` turns into
`-2^63`. The code checks no sign. -/
theorem cuda_version_nonneg_counterexample :
    ¬ (0 ≤ cuda_version { WITH_CUDA := true, CUDA_VERSION := -1 }) ∧
      ¬ (0 ≤ cuda_version
        { WITH_CUDA := true, CUDA_VERSION := 9223372036854775808 }) := by
  constructor <;> decide

/-- C3, amended: in every build with GPU-acceleration support whose toolkit
constant `CUDA_VERSION` is a non-negative 64-bit signed integer, the integer
that `cuda_version()` returns is non-negative. -/
theorem cuda_version_nonneg (v : Int) (h0 : 0 ≤ v) (hhi : v ≤ INT64_MAX) :
    0 ≤ cuda_version { WITH_CUDA := true, CUDA_VERSION := v } := by
  have hlo : INT64_MIN ≤ v := by
    unfold INT64_MIN
    omega
  simp [cuda_version, to_int64_t_of_fits v hlo hhi, h0]

theorem cuda_version_nonneg_witness :
    ((0 : Int) ≤ 12040 ∧ (12040 : Int) ≤ INT64_MAX) ∧
      0 ≤ cuda_version { WITH_CUDA := true, CUDA_VERSION := 12040 } :=
  ⟨⟨by decide, by decide⟩, cuda_version_nonneg 12040 (by decide) (by decide)⟩

/-- C6: for a given build, `n` calls of `cuda_version()` made one after the
other from any runtime state `s` return `n` times the same value, the value of
the build; the results depend neither on `s` nor on the calls before. -/
theorem cuda_version_same_every_call {σ : Type} (b : Build) (n : Nat) (s : σ) :
    (call_cuda_version_n b n s).1 = List.replicate n (cuda_version b) := by
  induction n generalizing s with
  | zero => rfl
  | succ k ih =>
    simp only [call_cuda_version_n, call_cuda_version, List.replicate_succ]
    rw [ih]

/-- C7: `cuda_version()` cannot fail: in either build configuration it yields
an integer result, and that result is a value of the type `int64_t`. -/
theorem cuda_version_total (b : Build) :
    ∃ r : Int, cuda_version b = r ∧ INT64_MIN ≤ r ∧ r ≤ INT64_MAX := by
  refine ⟨cuda_version b, rfl, ?_⟩
  unfold cuda_version
  split
  · exact to_int64_t_fits _
  · exact to_int64_t_fits _

/-- C9, as stated, fails: the toolkit constant `2^64 - 1` is non-negative,
the build has GPU-acceleration support, and `cuda_version()` still returns the
sentinel `-1`, because the constant is converted to `int64_t`. -/
theorem sentinel_unambiguous_counterexample :
    (0 : Int) ≤ 18446744073709551615 ∧
      ¬ (cuda_version { WITH_CUDA := true, CUDA_VERSION := 18446744073709551615 } = -1 ↔
        Build.WITH_CUDA { WITH_CUDA := true, CUDA_VERSION := 18446744073709551615 } =
          false) := by
  constructor <;> decide

/-- C9, amended: the sentinel is unambiguous when the toolkit constant is a
non-negative 64-bit signed integer (`0 ≤ CUDA_VERSION ≤ 2^63 - 1`): then
`cuda_version()` returns `-1` exactly when the build has no GPU-acceleration
support. With a toolkit constant equal to `-1` the build with support returns
what every build without support returns. -/
theorem sentinel_unambiguous :
    (∀ b : Build, 0 ≤ b.CUDA_VERSION → b.CUDA_VERSION ≤ INT64_MAX →
      (cuda_version b = -1 ↔ b.WITH_CUDA = false)) ∧
    (∀ w : Int, cuda_version { WITH_CUDA := true, CUDA_VERSION := -1 } =
      cuda_version { WITH_CUDA := false, CUDA_VERSION := w }) := by
  constructor
  · intro b h0 hhi
    have hlo : INT64_MIN ≤ b.CUDA_VERSION := by
      unfold INT64_MIN
      omega
    cases hb : b.WITH_CUDA with
    | false => simp [cuda_version, hb, to_int64_t_neg_one]
    | true =>
      simp only [cuda_version, hb, if_true, to_int64_t_of_fits _ hlo hhi]
      constructor
      · intro h
        omega
      · intro h
        cases h
  · intro w
    simp [cuda_version]

theorem sentinel_unambiguous_witness :
    ((0 : Int) ≤ 12040 ∧ (12040 : Int) ≤ INT64_MAX) ∧
      (cuda_version { WITH_CUDA := true, CUDA_VERSION := 12040 } = -1 ↔
        true = false) :=
  ⟨⟨by decide, by decide⟩,
    sentinel_unambiguous.1 { WITH_CUDA := true, CUDA_VERSION := 12040 }
      (by decide) (by decide)⟩

/-! ## The operator table -/

theorem count_operator_of_not_has (name : String) (t : OperatorTable)
    (h : has_operator name t = false) : count_operator name t = 0 := by
  induction t with
  | nil => rfl
  | cons op rest ih =>
    simp only [has_operator, Bool.or_eq_false_iff] at h
    simp [count_operator, h.1, ih h.2]

theorem count_operator_append (name : String) (t u : OperatorTable) :
    count_operator name (t ++ u) = count_operator name t + count_operator name u := by
  induction t with
  | nil => simp [count_operator]
  | cons op rest ih =>
    show (if op.name == name then 1 else 0) + count_operator name (rest ++ u) =
      (if op.name == name then 1 else 0) + count_operator name rest +
        count_operator name u
    rw [ih]
    omega

theorem find_operator_append_of_not_has (name : String) (t u : OperatorTable)
    (h : has_operator name t = false) :
    find_operator name (t ++ u) = find_operator name u := by
  induction t with
  | nil => rfl
  | cons op rest ih =>
    simp only [has_operator, Bool.or_eq_false_iff] at h
    simp [find_operator, h.1, ih h.2]

theorem registry_eq_some (b : Build) (t0 t : OperatorTable)
    (h : registry b t0 = some t) :
    has_operator cuda_version_name t0 = false ∧
      t = t0 ++ [nullary_operator cuda_version_name (fun _ => cuda_version b)] := by
  unfold registry RegisterOperators_op at h
  cases hh : has_operator cuda_version_name t0 with
  | true => simp [hh] at h
  | false =>
    simp only [hh, Bool.false_eq_true, if_false, Option.some.injEq] at h
    exact ⟨rfl, h.symm⟩

theorem find_operator_after_registry (b : Build) (t0 t : OperatorTable)
    (h : registry b t0 = some t) :
    find_operator cuda_version_name t =
      some (nullary_operator cuda_version_name (fun _ => cuda_version b)) := by
  obtain ⟨hfresh, ht⟩ := registry_eq_some b t0 t h
  rw [ht, find_operator_append_of_not_has _ _ _ hfresh]
  simp [find_operator, nullary_operator]

theorem perform_all_table (b : Build) (calls : List Call) (t : OperatorTable) :
    (perform_all b calls t).2 = t := by
  induction calls with
  | nil => rfl
  | cons c cs ih =>
    cases c <;> simpa [perform_all, perform, call_cuda_version] using ih

/-- C4: starting from any operator table that does not yet have the name,
the static initialisation succeeds and the table after it has exactly one
entry named "torch_gsp::cuda_version"; this holds for every build, with or
without `WITH_CUDA`. -/
theorem registry_registers_once (b : Build) (t0 : OperatorTable)
    (h : has_operator cuda_version_name t0 = false) :
    ∃ t, registry b t0 = some t ∧ count_operator cuda_version_name t = 1 := by
  refine ⟨t0 ++ [nullary_operator cuda_version_name (fun _ => cuda_version b)], ?_, ?_⟩
  · simp [registry, RegisterOperators_op, h]
  · rw [count_operator_append, count_operator_of_not_has _ _ h]
    simp [count_operator, nullary_operator]

theorem registry_registers_once_witness :
    has_operator cuda_version_name [nullary_operator "aten::one" (fun _ => 1)] = false ∧
      ∃ t, registry { WITH_CUDA := false, CUDA_VERSION := 0 }
          [nullary_operator "aten::one" (fun _ => 1)] = some t ∧
        count_operator cuda_version_name t = 1 :=
  ⟨by decide, registry_registers_once _ _ (by decide)⟩

/-- C5: after the static initialisation, the lookup of
"torch_gsp::cuda_version" in the operator table succeeds and yields an
operator with no inputs whose invocation, also through the table, returns the
integer that a direct call of `cuda_version()` returns in that build. -/
theorem lookup_after_registry (b : Build) (t0 t : OperatorTable)
    (h : registry b t0 = some t) :
    ∃ op, find_operator cuda_version_name t = some op ∧ op.num_inputs = 0 ∧
      op.call [] = some (cuda_version b) ∧
      call_operator cuda_version_name [] t = some (call_cuda_version b t).1 := by
  refine ⟨nullary_operator cuda_version_name (fun _ => cuda_version b),
    find_operator_after_registry b t0 t h, rfl, rfl, ?_⟩
  simp [call_operator, find_operator_after_registry b t0 t h, nullary_operator,
    call_cuda_version]

theorem lookup_after_registry_witness :
    registry { WITH_CUDA := true, CUDA_VERSION := 12040 } [] =
        some [nullary_operator cuda_version_name
          (fun _ => cuda_version { WITH_CUDA := true, CUDA_VERSION := 12040 })] ∧
      ∃ op, find_operator cuda_version_name
          [nullary_operator cuda_version_name
            (fun _ => cuda_version { WITH_CUDA := true, CUDA_VERSION := 12040 })] =
            some op ∧ op.num_inputs = 0 ∧
        op.call [] = some (cuda_version { WITH_CUDA := true, CUDA_VERSION := 12040 }) ∧
        call_operator cuda_version_name []
          [nullary_operator cuda_version_name
            (fun _ => cuda_version { WITH_CUDA := true, CUDA_VERSION := 12040 })] =
          some (call_cuda_version { WITH_CUDA := true, CUDA_VERSION := 12040 }
            [nullary_operator cuda_version_name
              (fun _ => cuda_version { WITH_CUDA := true, CUDA_VERSION := 12040 })]).1 :=
  ⟨rfl, lookup_after_registry _ [] _ rfl⟩

/-- C8: in every operator-table state reached by the static initialisation,
any sequence of calls of `cuda_version()`, made directly or through the table,
leaves the operator table as the registration left it, and every call of the
sequence returns the value of the build. -/
theorem calls_leave_table_unchanged (b : Build) (t0 t : OperatorTable)
    (calls : List Call) (h : registry b t0 = some t) :
    perform_all b calls t =
      (List.replicate calls.length (some (cuda_version b)), t) := by
  have hcall : call_operator cuda_version_name [] t = some (cuda_version b) := by
    simp [call_operator, find_operator_after_registry b t0 t h, nullary_operator]
  induction calls with
  | nil => rfl
  | cons c cs ih =>
    cases c <;>
      simp [perform_all, perform, call_cuda_version, hcall, ih, List.replicate_succ]

theorem calls_leave_table_unchanged_witness :
    registry { WITH_CUDA := false, CUDA_VERSION := 0 } [] =
        some [nullary_operator cuda_version_name
          (fun _ => cuda_version { WITH_CUDA := false, CUDA_VERSION := 0 })] ∧
      perform_all { WITH_CUDA := false, CUDA_VERSION := 0 }
          [Call.direct, Call.through_table, Call.direct]
          [nullary_operator cuda_version_name
            (fun _ => cuda_version { WITH_CUDA := false, CUDA_VERSION := 0 })] =
        (List.replicate [Call.direct, Call.through_table, Call.direct].length
            (some (cuda_version { WITH_CUDA := false, CUDA_VERSION := 0 })),
          [nullary_operator cuda_version_name
            (fun _ => cuda_version { WITH_CUDA := false, CUDA_VERSION := 0 })]) :=
  ⟨rfl, calls_leave_table_unchanged _ [] _ _ rfl⟩

end ThGSP
